import Mathlib

/-!
Shallow embedding of the survey report engine from
`src/utils/reportGenerator.js` (class `ReportGenerator`) and the CSV
export step `generateCSV` from `src/server.js`.

Strings are modelled as Lean `String` values and the JS regular
expressions used by the source are implemented as explicit functions on
`List Char`.  JS numbers appearing in the satisfaction computation are
modelled exactly: every contribution accumulated by the source is an
integer (`(stars/5)*100 = 20*stars`, table values 100/75/25/0), and
`Math.round` on a quotient of such sums is modelled on `ℚ`.  JS float
arithmetic agrees with this exact model for the magnitudes the theorems
below quantify over.
-/

namespace Survey

/-! ### Character and string primitives used by the JS code -/

/-- Whitespace class of the JS regexes (`\s`) and of `String.trim`,
restricted to the ASCII whitespace recognised by `Char.isWhitespace`. -/
def isWS (c : Char) : Bool := c.isWhitespace

/-- JS `answer.includes(',')`. -/
def hasComma (s : String) : Bool := s.data.contains ','

/-- JS `String.prototype.trim` on a character list: strip leading and
trailing whitespace. -/
def trimChars (cs : List Char) : List Char :=
  ((cs.dropWhile isWS).reverse.dropWhile isWS).reverse

/-- JS `answer.trim()`. -/
def jsTrim (s : String) : String := String.mk (trimChars s.data)

/-- Value of a decimal digit string, as read by JS `parseInt` on the
captured group `(\d+)` of the star regex. -/
def digitsVal (ds : List Char) : Nat :=
  ds.foldl (fun n c => 10 * n + (c.toNat - 48)) 0

/-- Case-insensitive literal `star` of the regexes: consume the four
characters `s` `t` `a` `r` (any case) and return the remainder. -/
def starWord : List Char → Option (List Char)
  | c1 :: c2 :: c3 :: c4 :: rest =>
      if c1.toLower = 's' ∧ c2.toLower = 't' ∧ c3.toLower = 'a' ∧ c4.toLower = 'r' then
        some rest
      else none
  | _ => none

/-- Attempt of the unanchored regex `/(\d+)\s*stars?/i` at the head of
the list: a nonempty maximal digit run, optional whitespace, then
`star` (the optional trailing `s` cannot affect whether the regex
matches).  Returns the value of the captured digit group. -/
def matchStarHere (cs : List Char) : Option Nat :=
  let ds := cs.takeWhile Char.isDigit
  if ds.isEmpty then none
  else
    match starWord ((cs.dropWhile Char.isDigit).dropWhile isWS) with
    | some _ => some (digitsVal ds)
    | none => none

/-- JS `answer.match(/(\d+)\s*stars?/i)`: leftmost match, value of the
first captured group (used by `calculateSatisfactionPercentage` and
`determineQuestionType`). -/
def findStar : List Char → Option Nat
  | [] => none
  | c :: cs =>
      match matchStarHere (c :: cs) with
      | some n => some n
      | none => findStar cs

/-- Anchored star regex `/^\d+\s*stars?$/` (case-insensitive) on a
character list: digits, optional whitespace, `star`, optional `s`,
end of input. -/
def anchoredStarCore (cs : List Char) : Bool :=
  let ds := cs.takeWhile Char.isDigit
  if ds.isEmpty then false
  else
    match starWord ((cs.dropWhile Char.isDigit).dropWhile isWS) with
    | some [] => true
    | some [c] => c.toLower == 's'
    | _ => false

/-- JS `starPattern.test(answer.trim())` with
`starPattern = /^\d+\s*stars?$/i` (from `isStarRatingQuestion`). -/
def anchoredStar (s : String) : Bool := anchoredStarCore (trimChars s.data)

/-- JS `String.prototype.split(',')` on a character list: the comma is
a single-character separator, empty fields are kept. -/
def splitOnComma : List Char → List (List Char)
  | [] => [[]]
  | c :: rest =>
      if c = ',' then [] :: splitOnComma rest
      else
        match splitOnComma rest with
        | [] => [[c]]
        | h :: t => (c :: h) :: t

/-- JS `answer.split(',').map(opt => opt.trim())` from the checkbox
branch of `generateAnalysis`. -/
def splitTrim (s : String) : List String :=
  (splitOnComma s.data).map (fun cs => String.mk (trimChars cs))

/-- JS `parseInt(response)` as used on the distinct-answer keys in
`generatePDF`: skip leading whitespace, optional sign, then a decimal
digit run; `none` models `NaN`.  (The hexadecimal `0x` form accepted by
`parseInt` is not modelled; no key of this shape arises here.) -/
def jsParseInt (s : String) : Option Int :=
  match s.data.dropWhile isWS with
  | '-' :: t =>
      let ds := t.takeWhile Char.isDigit
      if ds.isEmpty then none else some (-(digitsVal ds : Int))
  | '+' :: t =>
      let ds := t.takeWhile Char.isDigit
      if ds.isEmpty then none else some ((digitsVal ds : Int))
  | cs =>
      let ds := cs.takeWhile Char.isDigit
      if ds.isEmpty then none else some ((digitsVal ds : Int))

/-- JS `Math.round` on the nonnegative quotients produced by the code:
round half up. -/
def jsRound (q : ℚ) : Int := ⌊q + 1 / 2⌋

/-! ### Question classification (`determineQuestionType` and friends) -/

/-- Question category strings assigned by `generateAnalysis` and
`determineQuestionType`. -/
inductive QType where
  | StarRating
  | Checkbox
  | MCQ
  | Text
deriving DecidableEq, Repr

/-- Fixed satisfaction vocabulary (`commonOptions` in `isMCQQuestion`,
repeated literally inside `determineQuestionType`). -/
def commonOptions : List String :=
  ["Very Satisfied", "Satisfied", "Neutral", "Dissatisfied", "Very Dissatisfied"]

/-- JS `isMCQQuestion(answers)`: every answer is one of the five labels
or the literal `"No answer"`. -/
def isMCQQuestion (answers : List String) : Bool :=
  answers.all (fun a => commonOptions.contains a || a == "No answer")

/-- JS `determineQuestionType(answer)` (reportGenerator.js lines
583-588).  The star test is the unanchored regex, so it fires on any
substring match. -/
def determineQuestionType (answer : String) : QType :=
  if (findStar answer.data).isSome then QType.StarRating
  else if hasComma answer then QType.Checkbox
  else if commonOptions.contains answer then QType.MCQ
  else QType.Text

/-- JS `isStarRatingQuestion(question, [answer])`: false when the
question text or the answer is empty (falsy), otherwise the anchored
star regex applied to the trimmed answer. -/
def isStarRatingQuestion (question answer : String) : Bool :=
  !(question == "") && (!(answer == "") && anchoredStar answer)

/-! ### Per-question aggregation state (`questionAnalysis[qNum]`) -/

/-- One entry of `questionAnalysis` in `generateAnalysis`: question
text, distinct-answer occurrence counts in insertion order, running
response count and the category string.  The JS `type` field is a
string that the code tests for falsiness, hence `Option QType`. -/
structure QA where
  question : String
  responses : List (String × Nat)
  responseCount : Nat
  type : Option QType
deriving DecidableEq, Repr

/-- JS `responses[answer] = (responses[answer] || 0) + 1`: increment an
existing key in place or append a fresh key with count 1. -/
def bump : List (String × Nat) → String → List (String × Nat)
  | [], k => [(k, 1)]
  | (a, n) :: t, k => if a = k then (a, n + 1) :: t else (a, n) :: bump t k

/-- One iteration of the per-answer loop body of `generateAnalysis`
(lines 179-210) for a single question slot: initialise the entry on
first encounter, then dispatch on star / checkbox / plain answer, then
increment the response count. -/
def stepAnswer (s : Option QA) (question answer : String) : QA :=
  let qa0 : QA :=
    match s with
    | none =>
        { question := question, responses := [], responseCount := 0,
          type := some (determineQuestionType answer) }
    | some qa => qa
  let qa1 : QA :=
    if isStarRatingQuestion question answer then
      { qa0 with type := some QType.StarRating, responses := bump qa0.responses answer }
    else if hasComma answer then
      { qa0 with
        type := some QType.Checkbox
        responses := (splitTrim answer).foldl bump qa0.responses }
    else
      let qa2 := { qa0 with responses := bump qa0.responses answer }
      if qa2.type = none then
        { qa2 with type := some (if isMCQQuestion [answer] then QType.MCQ else QType.Text) }
      else qa2
  { qa1 with responseCount := qa1.responseCount + 1 }

/-- Fold of `stepAnswer` over the (question text, answer text) pairs a
department contributes to one question number, in row order; `none`
when the question never occurs. -/
def processAnswers (items : List (String × String)) : Option QA :=
  items.foldl (fun s p => some (stepAnswer s p.1 p.2)) none

/-- Distinct-answer counts of an optional per-question state (a slot
the loop has not reached yet holds no counts). -/
def stateResponses : Option QA → List (String × Nat)
  | none => []
  | some qa => qa.responses

/-- Response count of an optional per-question state. -/
def stateCount : Option QA → Nat
  | none => 0
  | some qa => qa.responseCount

/-- Number of count increments one answer adds to the distinct-answer
map of its question: 1 on the star and plain branches, one per
comma-separated option on the checkbox branch. -/
def answerWeight (question answer : String) : Nat :=
  if isStarRatingQuestion question answer then 1
  else if hasComma answer then (splitTrim answer).length
  else 1

/-! ### Satisfaction scoring (`calculateSatisfactionPercentage`) -/

/-- One CSV response row as consumed by the analysis: the `Department`
column and the ordered `(Question i, Answer i)` column pairs. -/
structure Row where
  department : String
  qa : List (String × String)
deriving DecidableEq, Repr

/-- Accumulator of `calculateSatisfactionPercentage`: satisfaction and
dissatisfaction score sums and counted answers.  Every contribution of
the source is a nonnegative integer, see the per-branch comments. -/
structure SatAcc where
  satScore : Nat
  satN : Nat
  disScore : Nat
  disN : Nat
deriving DecidableEq, Repr

/-- Result record of `calculateSatisfactionPercentage` (the JS code
interpolates these numbers into `"…%"` strings for the overview). -/
structure SatResult where
  satisfaction : Int
  dissatisfaction : Int
deriving DecidableEq, Repr

/-- Body of the per-answer loop of `calculateSatisfactionPercentage`
(lines 528-574): skip empty question or answer, score a star match
(`(stars/5)*100 = 20*stars` when `stars ≥ 3`, else
`((5-stars)/5)*100 = 20*(5-stars)`), otherwise look the trimmed answer
up in the fixed table (`Very Satisfied ↦ 100`, `Satisfied ↦ 75` toward
satisfaction; `Dissatisfied ↦ 100-25 = 75`,
`Very Dissatisfied ↦ 100-0 = 100` toward dissatisfaction). -/
def scoreAnswer (acc : SatAcc) (question answer : String) : SatAcc :=
  if answer = "" ∨ question = "" then acc
  else
    match findStar answer.data with
    | some stars =>
        if 3 ≤ stars then
          { acc with satScore := acc.satScore + 20 * stars, satN := acc.satN + 1 }
        else
          { acc with disScore := acc.disScore + 20 * (5 - stars), disN := acc.disN + 1 }
    | none =>
        let answerKey := jsTrim answer
        if answerKey = "Very Satisfied" then
          { acc with satScore := acc.satScore + 100, satN := acc.satN + 1 }
        else if answerKey = "Satisfied" then
          { acc with satScore := acc.satScore + 75, satN := acc.satN + 1 }
        else if answerKey = "Dissatisfied" then
          { acc with disScore := acc.disScore + 75, disN := acc.disN + 1 }
        else if answerKey = "Very Dissatisfied" then
          { acc with disScore := acc.disScore + 100, disN := acc.disN + 1 }
        else acc

/-- Fold of the scorer over every answer of every row of
`calculateSatisfactionPercentage`. -/
def satisfactionAccum (rows : List Row) : SatAcc :=
  rows.foldl (fun acc r => r.qa.foldl (fun a p => scoreAnswer a p.1 p.2) acc)
    (SatAcc.mk 0 0 0 0)

/-- JS `calculateSatisfactionPercentage(responses)` (lines 522-580):
fold the scorer over every answer of every row, then average each
bucket with `Math.round`, defaulting to 0 on an empty denominator. -/
def calculateSatisfactionPercentage (rows : List Row) : SatResult :=
  { satisfaction :=
      if 0 < (satisfactionAccum rows).satN then
        jsRound (((satisfactionAccum rows).satScore : ℚ) / ((satisfactionAccum rows).satN : ℚ))
      else 0,
    dissatisfaction :=
      if 0 < (satisfactionAccum rows).disN then
        jsRound (((satisfactionAccum rows).disScore : ℚ) / ((satisfactionAccum rows).disN : ℚ))
      else 0 }

/-! ### Department-level aggregation (`generateAnalysis`) -/

/-- JS `[...new Set(list)]`: distinct values in first-occurrence order,
realised with an accumulator of already-seen values. -/
def distinctAux : List String → List String → List String
  | [], _ => []
  | a :: t, seen =>
      if seen.contains a then distinctAux t seen
      else a :: distinctAux t (a :: seen)

/-- Distinct department values, first occurrence first, as produced by
`[...new Set(responses.map(r => r['Department']))]`. -/
def distinct (l : List String) : List String := distinctAux l []

/-- Per-department block of the analysis (`departmentStats[dept]`). -/
structure DeptStats where
  totalResponses : Nat
  questionAnalysis : List (Nat × QA)
deriving DecidableEq, Repr

/-- Overview block of the analysis.  The JS stores the two percentage
fields as `"…%"` strings; the numbers are modelled. -/
structure Overview where
  totalResponses : Nat
  numberOfDepartments : Nat
  averageSatisfaction : Int
  averageDissatisfaction : Int
deriving DecidableEq, Repr

/-- Result of `generateAnalysis`. -/
structure Analysis where
  overview : Overview
  departmentStats : List (String × DeptStats)
deriving DecidableEq, Repr

/-- The (question text, answer text) pairs a list of rows holds at
question index `i` (0-based column position, question number `i+1`). -/
def columnAnswers (rows : List Row) (i : Nat) : List (String × String) :=
  rows.filterMap (fun r => r.qa.get? i)

/-- Largest number of question columns of any row. -/
def maxQuestions (rows : List Row) : Nat :=
  rows.foldl (fun m r => max m r.qa.length) 0

/-- Per-question analyses of one department.  The JS builds the map by
folding rows and, inside each row, question keys in ascending order;
since different question numbers never interact, the entry for question
`i+1` equals the fold of the per-answer step over column `i`, and
JS objects enumerate the numeric keys `"1"`, `"2"`, … in ascending
order, which the `List.range` presentation reproduces. -/
def deptQuestionAnalysis (rows : List Row) : List (Nat × QA) :=
  (List.range (maxQuestions rows)).filterMap (fun i =>
    match processAnswers (columnAnswers rows i) with
    | some qa => some (i + 1, qa)
    | none => none)

/-- JS `generateAnalysis` (lines 149-225) after `readCSV` has produced
the row list: overview from the row count, the distinct departments and
`calculateSatisfactionPercentage`; then per-department statistics over
the rows filtered by exact department equality. -/
def generateAnalysis (rows : List Row) : Analysis :=
  let departments := distinct (rows.map (fun r => r.department))
  let satisfactionMetrics := calculateSatisfactionPercentage rows
  { overview :=
      { totalResponses := rows.length,
        numberOfDepartments := departments.length,
        averageSatisfaction := satisfactionMetrics.satisfaction,
        averageDissatisfaction := satisfactionMetrics.dissatisfaction },
    departmentStats := departments.map (fun dept =>
      let deptResponses := rows.filter (fun r => r.department == dept)
      (dept,
        { totalResponses := deptResponses.length,
          questionAnalysis := deptQuestionAnalysis deptResponses })) }

/-- JS `readCSV` (lines 21-35) result logic: an empty row set is
rejected with the error `CSV file is empty` before any aggregation
runs; otherwise the rows are handed to the caller. -/
def readCSVResult (rows : List Row) : Except String (List Row) :=
  if rows.length = 0 then Except.error "CSV file is empty" else Except.ok rows

/-! ### Satisfaction tally (`aggregateSatisfactionLevels`) -/

/-- Initial `satisfactionCounts` object: the five labels, each 0. -/
def initialSatisfactionCounts : List (String × Nat) :=
  [("Very Satisfied", 0), ("Satisfied", 0), ("Neutral", 0),
   ("Dissatisfied", 0), ("Very Dissatisfied", 0)]

/-- JS `satisfactionCounts[response] += count` guarded by
`hasOwnProperty`: only keys already present are updated. -/
def addLabelCount (m : List (String × Nat)) (response : String) (count : Nat) :
    List (String × Nat) :=
  m.map (fun p => if p.1 == response then (p.1, p.2 + count) else p)

/-- JS `aggregateSatisfactionLevels(analysis)` (lines 591-613): sum the
per-label counts of every MCQ-classified question analysis of every
department into the five-label tally. -/
def aggregateSatisfactionLevels (analysis : Analysis) : List (String × Nat) :=
  analysis.departmentStats.foldl (fun m p =>
    p.2.questionAnalysis.foldl (fun m q =>
      if q.2.type = some QType.MCQ then
        q.2.responses.foldl (fun m rc => addLabelCount m rc.1 rc.2) m
      else m) m) initialSatisfactionCounts

/-! ### CSV export (`generateCSV` in server.js) -/

/-- One stored response as fetched by `generateCSV`: the department may
be missing, the question/answer pairs are already in column form. -/
structure StoreResponse where
  department : Option String
  qa : List (String × String)
deriving DecidableEq, Repr

/-- Department cell written by `generateCSV` (server.js line 84):
`response.department || "Unknown Department"` — the JS `||` falls back
both on a missing and on an empty department string. -/
def csvDepartment (department : Option String) : String :=
  match department with
  | none => "Unknown Department"
  | some s => if s = "" then "Unknown Department" else s

/-- Row of the exported CSV produced for one stored response, as seen
by the analysis (only the department and question/answer columns). -/
def csvRow (r : StoreResponse) : Row :=
  { department := csvDepartment r.department, qa := r.qa }

/-! ### Report rendering fragments (`generatePDF`) -/

/-- Count lookup in a distinct-answer map (`qData.responses[key] || 0`). -/
def lookupCount (m : List (String × Nat)) (k : String) : Nat :=
  match m.find? (fun p => p.1 == k) with
  | some p => p.2
  | none => 0

/-- Star line of the PDF (lines 349-352): the count printed next to
`stars` is the count of the exact key `` `${stars} stars` `` (always
plural). -/
def starLineCount (qa : QA) (stars : Nat) : Nat :=
  lookupCount qa.responses (Nat.repr stars ++ " stars")

/-- Sums of the average-rating loop of `generatePDF` (lines 354-362):
`parseInt` each distinct answer, skip `NaN`, accumulate
`stars * count` and `count`. -/
def pdfStarTotals (qa : QA) : Int × Nat :=
  qa.responses.foldl (fun acc p =>
    match jsParseInt p.1 with
    | some stars => (acc.1 + stars * (p.2 : Int), acc.2 + p.2)
    | none => acc) (0, 0)

/-- Average star rating printed by `generatePDF`, in tenths:
`(totalStars / totalResponses).toFixed(1)` renders `n / 10` where `n`
is this value; `0` (printed `0.0`) when nothing parsed. -/
def pdfAverageRatingTenths (qa : QA) : Int :=
  if 0 < (pdfStarTotals qa).2 then
    jsRound (((pdfStarTotals qa).1 : ℚ) / ((pdfStarTotals qa).2 : ℚ) * 10)
  else 0

/-- Percentage printed for an MCQ or checkbox option, in tenths:
`((count / qData.responseCount) * 100).toFixed(1)` renders `n / 10`
where `n` is this value. -/
def pdfPercentTenths (count responseCount : Nat) : Int :=
  jsRound ((count : ℚ) / (responseCount : ℚ) * 100 * 10)

/-- Rendered percentage line of a checkbox option (lines 343-347): the
denominator is the question's `responseCount`, not the selection sum. -/
def checkboxLineTenths (qa : QA) (option : String) : Int :=
  pdfPercentTenths (lookupCount qa.responses option) qa.responseCount

/-- Department stats lookup by label. -/
def lookupDept (stats : List (String × DeptStats)) (d : String) : Option DeptStats :=
  (stats.find? (fun p => p.1 == d)).map (fun p => p.2)

/-- Sum of the distinct-answer occurrence counts of a question
analysis (the quantity the `QuestionAnalysis` invariant compares with
`responseCount`). -/
def sumCounts (m : List (String × Nat)) : Nat := (m.map (fun p => p.2)).sum

/-! ### Concrete example values used by the claim theorems -/

/-- Question analysis the engine produces for the mixed answers
`["Gym, Lunch", "3 stars"]` on one question: the comma answer tallies
two options, the later star answer overwrites the category. -/
def mixedExampleQA : QA :=
  { question := "Perks", responses := [("Gym", 1), ("Lunch", 1), ("3 stars", 1)],
    responseCount := 2, type := some QType.StarRating }

/-- Question analysis the engine produces for the spec example star
answers `["5 stars", "5 stars", "1 star"]` on one question. -/
def starExampleQA : QA :=
  { question := "How many stars", responses := [("5 stars", 2), ("1 star", 1)],
    responseCount := 3, type := some QType.StarRating }

/-- Question analysis the engine produces for the spec example checkbox
answers `["Gym, Lunch", "Lunch"]` on one question. -/
def checkboxExampleQA : QA :=
  { question := "Perks", responses := [("Gym", 1), ("Lunch", 2)],
    responseCount := 2, type := some QType.Checkbox }

/-! ### Evaluation lemmas: the rounded rational averages as integer
divisions, so concrete instances reduce inside the kernel -/

theorem jsRound_nat_div (s n : Nat) :
    jsRound ((s : ℚ) / (n : ℚ)) = (((2 * s + n) / (2 * n) : Nat) : Int) := by
  unfold jsRound
  rcases Nat.eq_zero_or_pos n with h | h
  · subst h
    norm_num [Int.floor_eq_zero_iff, Set.mem_Ico]
  · have hn : (n : ℚ) ≠ 0 := Nat.cast_ne_zero.mpr h.ne'
    have key : (s : ℚ) / (n : ℚ) + 1 / 2 = ((2 * s + n : ℕ) : ℚ) / ((2 * n : ℕ) : ℚ) := by
      push_cast
      field_simp
      ring
    rw [key, Rat.floor_natCast_div_natCast]
    exact (Int.natCast_div _ _).symm

theorem satPart_eval (s n : Nat) :
    (if 0 < n then jsRound ((s : ℚ) / (n : ℚ)) else 0) =
      (((2 * s + n) / (2 * n) : Nat) : Int) := by
  rcases Nat.eq_zero_or_pos n with h | h
  · subst h
    simp
  · rw [if_pos h, jsRound_nat_div]

theorem calculateSatisfactionPercentage_eval (rows : List Row) :
    calculateSatisfactionPercentage rows =
      { satisfaction :=
          (((2 * (satisfactionAccum rows).satScore + (satisfactionAccum rows).satN) /
            (2 * (satisfactionAccum rows).satN) : Nat) : Int),
        dissatisfaction :=
          (((2 * (satisfactionAccum rows).disScore + (satisfactionAccum rows).disN) /
            (2 * (satisfactionAccum rows).disN) : Nat) : Int) } := by
  unfold calculateSatisfactionPercentage
  rw [satPart_eval, satPart_eval]

theorem jsRound_int_div_mul_ten (a : Int) (b : Nat) :
    jsRound ((a : ℚ) / (b : ℚ) * 10) = (20 * a + (b : Int)) / ((2 * b : Nat) : Int) := by
  unfold jsRound
  rcases Nat.eq_zero_or_pos b with h | h
  · subst h
    norm_num [Int.floor_eq_zero_iff, Set.mem_Ico]
  · have hb : (b : ℚ) ≠ 0 := Nat.cast_ne_zero.mpr h.ne'
    have key : (a : ℚ) / (b : ℚ) * 10 + 1 / 2 =
        ((20 * a + (b : Int) : ℤ) : ℚ) / ((2 * b : ℕ) : ℚ) := by
      push_cast
      field_simp
      ring
    rw [key, Rat.floor_intCast_div_natCast]

theorem pdfAverageRatingTenths_eval (qa : QA) :
    pdfAverageRatingTenths qa =
      (if 0 < (pdfStarTotals qa).2 then
        (20 * (pdfStarTotals qa).1 + ((pdfStarTotals qa).2 : Int)) /
          ((2 * (pdfStarTotals qa).2 : Nat) : Int)
      else 0) := by
  unfold pdfAverageRatingTenths
  rcases Nat.eq_zero_or_pos (pdfStarTotals qa).2 with h | h
  · rw [if_neg (by omega), if_neg (by omega)]
  · rw [if_pos h, if_pos h, jsRound_int_div_mul_ten]

theorem pdfPercentTenths_eval (c rc : Nat) :
    pdfPercentTenths c rc = (((2000 * c + rc) / (2 * rc) : Nat) : Int) := by
  unfold pdfPercentTenths
  rcases Nat.eq_zero_or_pos rc with h | h
  · subst h
    norm_num [jsRound, Int.floor_eq_zero_iff, Set.mem_Ico]
  · have hrc : (rc : ℚ) ≠ 0 := Nat.cast_ne_zero.mpr h.ne'
    unfold jsRound
    have key : (c : ℚ) / (rc : ℚ) * 100 * 10 + 1 / 2 =
        ((2000 * c + rc : ℕ) : ℚ) / ((2 * rc : ℕ) : ℚ) := by
      push_cast
      field_simp
      ring
    rw [key, Rat.floor_natCast_div_natCast]
    exact (Int.natCast_div _ _).symm

/-! ### Supporting lemmas for the aggregation theorems -/

theorem mem_of_mem_distinctAux {x : String} :
    ∀ {l seen : List String}, x ∈ distinctAux l seen → x ∈ l ∧ seen.contains x = false := by
  intro l
  induction l with
  | nil => intro seen h; simp [distinctAux] at h
  | cons a t ih =>
    intro seen h
    by_cases hc : seen.contains a = true
    · rw [distinctAux, if_pos hc] at h
      obtain ⟨h1, h2⟩ := ih h
      exact ⟨List.mem_cons_of_mem a h1, h2⟩
    · rw [distinctAux, if_neg hc] at h
      rcases List.mem_cons.mp h with rfl | h
      · exact ⟨List.mem_cons_self x t, by simpa using hc⟩
      · obtain ⟨h1, h2⟩ := ih h
        simp only [List.contains_cons, Bool.or_eq_false_iff] at h2
        exact ⟨List.mem_cons_of_mem a h1, h2.2⟩

theorem mem_distinctAux_of_mem {x : String} :
    ∀ {l seen : List String}, x ∈ l → seen.contains x = false → x ∈ distinctAux l seen := by
  intro l
  induction l with
  | nil => intro seen h; simp at h
  | cons a t ih =>
    intro seen h hs
    by_cases hc : seen.contains a = true
    · rw [distinctAux, if_pos hc]
      rcases List.mem_cons.mp h with rfl | h
      · rw [hs] at hc; exact absurd hc (by simp)
      · exact ih h hs
    · rw [distinctAux, if_neg hc]
      rcases List.mem_cons.mp h with rfl | h
      · exact List.mem_cons_self x _
      · by_cases hxa : x = a
        · subst hxa; exact List.mem_cons_self x _
        · refine List.mem_cons_of_mem a (ih h ?_)
          simp only [List.contains_cons, Bool.or_eq_false_iff]
          exact ⟨by simp [hxa], hs⟩

theorem countP_bool_split (p q : String → Bool) :
    ∀ t : List String,
      t.countP p = t.countP (fun x => p x && q x) + t.countP (fun x => p x && !q x) := by
  intro t
  induction t with
  | nil => rfl
  | cons x t ih =>
    rw [List.countP_cons, List.countP_cons, List.countP_cons, ih]
    cases hp : p x <;> cases hq : q x <;> simp [hp, hq] <;> omega

theorem sum_counts_distinctAux :
    ∀ (l seen : List String),
      ((distinctAux l seen).map (fun d => l.countP (fun x => x == d))).sum =
        l.countP (fun x => !seen.contains x) := by
  intro l
  induction l with
  | nil => intro seen; rfl
  | cons a t ih =>
    intro seen
    by_cases hc : seen.contains a = true
    · rw [distinctAux, if_pos hc]
      have hmap : (distinctAux t seen).map (fun d => (a :: t).countP (fun x => x == d)) =
          (distinctAux t seen).map (fun d => t.countP (fun x => x == d)) := by
        refine List.map_congr_left ?_
        intro d hd
        have hds := (mem_of_mem_distinctAux hd).2
        refine List.countP_cons_of_neg _ _ ?_
        intro had
        have : a = d := by simpa using had
        subst this
        rw [hc] at hds
        cases hds
      rw [hmap, ih seen, List.countP_cons_of_neg _ _ (by rw [hc]; decide)]
    · rw [distinctAux, if_neg hc]
      have hcf : seen.contains a = false := by simpa using hc
      have hmap : (distinctAux t (a :: seen)).map
            (fun d => (a :: t).countP (fun x => x == d)) =
          (distinctAux t (a :: seen)).map (fun d => t.countP (fun x => x == d)) := by
        refine List.map_congr_left ?_
        intro d hd
        have hds := (mem_of_mem_distinctAux hd).2
        simp only [List.contains_cons, Bool.or_eq_false_iff] at hds
        refine List.countP_cons_of_neg _ _ ?_
        intro had
        have : a = d := by simpa using had
        subst this
        rw [hds.1] at had
        cases had
      rw [List.map_cons, List.sum_cons, hmap, ih (a :: seen),
        List.countP_cons_of_pos _ _ (by simp),
        List.countP_cons_of_pos _ _ (by rw [hcf]; decide)]
      have hsplit := countP_bool_split (fun x => !seen.contains x) (fun x => x == a) t
      have h1 : t.countP (fun x => (!seen.contains x) && (x == a)) =
          t.countP (fun x => x == a) := by
        refine List.countP_congr ?_
        intro x _
        constructor
        · intro hx
          exact (Bool.and_eq_true _ _ |>.mp hx).2
        · intro hx
          have hxa : x = a := by simpa using hx
          subst hxa
          rw [hcf]
          simp
      have h2 : t.countP (fun x => !(a :: seen).contains x) =
          t.countP (fun x => (!seen.contains x) && !(x == a)) := by
        refine List.countP_congr ?_
        intro x _
        simp only [List.contains_cons, Bool.not_or, Bool.and_eq_true, Bool.not_eq_true']
        constructor
        · intro hx; exact ⟨hx.2, hx.1⟩
        · intro hx; exact ⟨hx.2, hx.1⟩
      rw [h2]
      omega

/-! ### Claim theorems -/

/-- C1 (counterexample): the claim says a star answer with a count
outside 1-5 contributes to neither aggregate and is excluded from both
denominators, which would leave both averages at 0 for a lone
`"0 stars"` answer; `calculateSatisfactionPercentage` instead scores it
into the dissatisfaction bucket with value `((5-0)/5)*100 = 100` and
denominator 1. -/
theorem c1_zero_stars_counterexample :
    calculateSatisfactionPercentage [{ department := "D", qa := [("Q 1", "0 stars")] }] =
      { satisfaction := 0, dissatisfaction := 100 } := by
  rw [calculateSatisfactionPercentage_eval]
  decide

/-- C2 (confirmed): for one MCQ question answered exactly once with
each of the five satisfaction labels, the average satisfaction is
`round((100+75)/2) = 88` and the average dissatisfaction is
`round(((100-25)+(100-0))/2) = 88`; Neutral enters neither bucket and
the averaging rounds half up. -/
theorem c2_mcq_five_labels_averages :
    calculateSatisfactionPercentage
      [{ department := "Engineering", qa := [("Q 1", "Very Satisfied")] },
       { department := "Engineering", qa := [("Q 1", "Satisfied")] },
       { department := "Engineering", qa := [("Q 1", "Neutral")] },
       { department := "Engineering", qa := [("Q 1", "Dissatisfied")] },
       { department := "Engineering", qa := [("Q 1", "Very Dissatisfied")] }] =
      { satisfaction := 88, dissatisfaction := 88 } := by
  rw [calculateSatisfactionPercentage_eval]
  decide

/-- C3 (counterexample): the claim says every comma-containing answer
classifies as `Checkbox` and never `StarRating`, yet
`determineQuestionType` tests the unanchored star regex first, so the
comma answer `"3 stars, 4 stars"` classifies as `StarRating`. -/
theorem c3_comma_star_counterexample :
    hasComma "3 stars, 4 stars" = true ∧
      determineQuestionType "3 stars, 4 stars" = QType.StarRating := by decide

/-- C3 (amended): a comma-containing answer classifies as `Checkbox`
unless the unanchored star regex matches somewhere inside it, in which
case it classifies as `StarRating`; in either case it is never
classified `MCQ`, so only comma-free answers can be `MCQ`. -/
theorem c3_comma_classification (a : String) (h : hasComma a = true) :
    (findStar a.data = none → determineQuestionType a = QType.Checkbox) ∧
      ((findStar a.data).isSome → determineQuestionType a = QType.StarRating) ∧
      determineQuestionType a ≠ QType.MCQ := by
  unfold determineQuestionType
  rcases hf : findStar a.data with _ | n
  · simp [hf, h]
  · simp [hf]

/-- C3 (witness): the amended classification at the concrete comma
answer `"Gym, Lunch"`. -/
theorem c3_comma_classification_witness :
    (findStar ("Gym, Lunch").data = none →
        determineQuestionType "Gym, Lunch" = QType.Checkbox) ∧
      ((findStar ("Gym, Lunch").data).isSome →
        determineQuestionType "Gym, Lunch" = QType.StarRating) ∧
      determineQuestionType "Gym, Lunch" ≠ QType.MCQ :=
  c3_comma_classification "Gym, Lunch" (by decide)

/-- C4 (counterexample): the claim says the empty-input aggregation
comes with an empty satisfaction-tally map, but the tally built by
`aggregateSatisfactionLevels` over the empty analysis is the five-label
map with zero counts, not the empty map. -/
theorem c4_tally_not_empty_counterexample :
    aggregateSatisfactionLevels (generateAnalysis []) ≠ [] := by decide

/-- C4 (amended): aggregating an empty row sequence does not fail: it
yields the all-zero overview (0 responses, 0 departments, 0%
satisfaction and dissatisfaction) and an empty per-department map,
and the satisfaction tally is the five fixed labels each with count 0
(not an empty map). -/
theorem c4_empty_rows_aggregation :
    generateAnalysis [] =
      { overview := { totalResponses := 0, numberOfDepartments := 0,
                      averageSatisfaction := 0, averageDissatisfaction := 0 },
        departmentStats := [] } ∧
      aggregateSatisfactionLevels (generateAnalysis []) =
        [("Very Satisfied", 0), ("Satisfied", 0), ("Neutral", 0),
         ("Dissatisfied", 0), ("Very Dissatisfied", 0)] := ⟨rfl, rfl⟩

/-- C7 (counterexample): the claim says every question analysis whose
final category is `StarRating` has count sum equal to its response
count; for the mixed answers `["Gym, Lunch", "3 stars"]` the final
category is `StarRating` while the counts sum to 3 against a response
count of 2. -/
theorem c7_mixed_star_checkbox_counterexample :
    processAnswers [("Perks", "Gym, Lunch"), ("Perks", "3 stars")] = some mixedExampleQA ∧
      mixedExampleQA.type = some QType.StarRating ∧
      sumCounts mixedExampleQA.responses = 3 ∧
      mixedExampleQA.responseCount = 2 := by decide

/-- C8 (confirmed): for the checkbox answers `["Gym, Lunch", "Lunch"]`
on one question the distinct-count map is `Gym ↦ 1, Lunch ↦ 2` with
response count 2, and the rendered percentage for `Lunch` divides by
the response count 2 (not the selection sum 3), printing `100.0`% . -/
theorem c8_checkbox_distinct_counts_percentage :
    processAnswers [("Perks", "Gym, Lunch"), ("Perks", "Lunch")] = some checkboxExampleQA ∧
      checkboxExampleQA.responseCount = 2 ∧
      sumCounts checkboxExampleQA.responses = 3 ∧
      checkboxLineTenths checkboxExampleQA "Lunch" = 1000 := by
  refine ⟨by decide, by decide, by decide, ?_⟩
  unfold checkboxLineTenths
  rw [pdfPercentTenths_eval]
  decide

/-- C9 (counterexample): the claim says an answer recorded as
`"1 star"` is counted on the 1-star line of the report; the renderer
looks up the plural key `"1 stars"`, so the singular answer is present
in the distinct-count map with count 1 while the 1-star line prints
count 0. -/
theorem c9_singular_star_line_counterexample :
    processAnswers
        [("How many stars", "5 stars"), ("How many stars", "5 stars"),
         ("How many stars", "1 star")] = some starExampleQA ∧
      lookupCount starExampleQA.responses "1 star" = 1 ∧
      starLineCount starExampleQA 1 = 0 := by decide

/-- C9 (amended): for the star answers `["5 stars", "5 stars",
"1 star"]` the question renders as `StarRating`; the 5..1 star lines
count only answers whose text is exactly `"N stars"` (plural), so they
print 2,0,0,0,0 — the singular `"1 star"` answer is not counted on the
1-star line — while the mean star rating parses every distinct answer
text beginning with an integer, giving `(5*2+1*1)/3` printed as
`3.7`. -/
theorem c9_star_rendering :
    processAnswers
        [("How many stars", "5 stars"), ("How many stars", "5 stars"),
         ("How many stars", "1 star")] = some starExampleQA ∧
      starExampleQA.type = some QType.StarRating ∧
      starLineCount starExampleQA 5 = 2 ∧ starLineCount starExampleQA 4 = 0 ∧
      starLineCount starExampleQA 3 = 0 ∧ starLineCount starExampleQA 2 = 0 ∧
      starLineCount starExampleQA 1 = 0 ∧
      pdfAverageRatingTenths starExampleQA = 37 := by
  refine ⟨by decide, by decide, by decide, by decide, by decide, by decide, by decide, ?_⟩
  rw [pdfAverageRatingTenths_eval]
  decide

/-- Lookup in an association list built by tagging each key of `l`
with `f`: any key of `l` is found with its tag. -/
theorem find_map_self {β : Type} (f : String → β) :
    ∀ (l : List String) (d : String), d ∈ l →
      (l.map (fun x => (x, f x))).find? (fun p => p.1 == d) = some (d, f d) := by
  intro l
  induction l with
  | nil => intro d h; cases h
  | cons a t ih =>
    intro d h
    by_cases had : a = d
    · subst had
      simp [List.find?]
    · rw [List.map_cons, List.find?_cons_of_neg _ (by simp [had]), ih]
      rcases List.mem_cons.mp h with rfl | h
      · exact absurd rfl had
      · exact h

/-- C6 (confirmed): for every input row sequence, the per-department
total response counts of `generateAnalysis` sum to the overview total
response count — every row lands in exactly one department group. -/
theorem c6_department_counts_sum (rows : List Row) :
    (((generateAnalysis rows).departmentStats).map (fun p => p.2.totalResponses)).sum =
      (generateAnalysis rows).overview.totalResponses := by
  have hov : (generateAnalysis rows).overview.totalResponses = rows.length := rfl
  have hds : (generateAnalysis rows).departmentStats =
      (distinct (rows.map (fun r => r.department))).map (fun d =>
        (d, DeptStats.mk (rows.filter (fun r => r.department == d)).length
            (deptQuestionAnalysis (rows.filter (fun r => r.department == d))))) := rfl
  rw [hov, hds, List.map_map]
  rw [show ((fun p : String × DeptStats => p.2.totalResponses) ∘ fun d =>
        (d, DeptStats.mk (rows.filter (fun r => r.department == d)).length
            (deptQuestionAnalysis (rows.filter (fun r => r.department == d))))) =
      (fun d => (rows.filter (fun r => r.department == d)).length) from rfl]
  have hcount : ∀ d ∈ distinct (rows.map (fun r => r.department)),
      (fun d => (rows.filter (fun r => r.department == d)).length) d =
        (fun d => (rows.map (fun r => r.department)).countP (fun x => x == d)) d := by
    intro d _
    show (rows.filter (fun r => r.department == d)).length =
      (rows.map (fun r => r.department)).countP (fun x => x == d)
    rw [List.countP_map]
    exact (List.countP_eq_length_filter _ _).symm
  rw [List.map_congr_left hcount, distinct, sum_counts_distinctAux]
  have hall : (rows.map (fun r => r.department)).countP
        (fun x => !(([] : List String).contains x)) =
      (rows.map (fun r => r.department)).countP (fun _ => true) :=
    List.countP_congr (by intro x _; simp)
  rw [hall]
  simp

/-- C5 (confirmed): a stored response whose department is missing or
empty is exported by `generateCSV` under the literal department label
`"Unknown Department"`, and the analysis groups it verbatim under that
exact label with a positive response count — the row is not dropped. -/
theorem c5_unknown_department_grouping (rs : List StoreResponse) (r : StoreResponse)
    (hmem : r ∈ rs) (hdep : r.department = none ∨ r.department = some "") :
    ∃ ds : DeptStats,
      lookupDept (generateAnalysis (rs.map csvRow)).departmentStats "Unknown Department" =
          some ds ∧
        ds.totalResponses =
          ((rs.map csvRow).filter
            (fun x => x.department == "Unknown Department")).length ∧
        0 < ds.totalResponses := by
  have hr : csvRow r ∈ rs.map csvRow := List.mem_map_of_mem _ hmem
  have hrdep : (csvRow r).department = "Unknown Department" := by
    rcases hdep with h | h <;> simp [csvRow, csvDepartment, h]
  have hmemdep : "Unknown Department" ∈ (rs.map csvRow).map (fun x => x.department) := by
    rw [← hrdep]
    exact List.mem_map_of_mem _ hr
  have hdistinct : "Unknown Department" ∈
      distinct ((rs.map csvRow).map (fun x => x.department)) :=
    mem_distinctAux_of_mem hmemdep rfl
  have hds : (generateAnalysis (rs.map csvRow)).departmentStats =
      (distinct ((rs.map csvRow).map (fun x => x.department))).map (fun d =>
        (d, DeptStats.mk ((rs.map csvRow).filter (fun x => x.department == d)).length
            (deptQuestionAnalysis ((rs.map csvRow).filter (fun x => x.department == d))))) :=
    rfl
  refine ⟨DeptStats.mk
      ((rs.map csvRow).filter (fun x => x.department == "Unknown Department")).length
      (deptQuestionAnalysis
        ((rs.map csvRow).filter (fun x => x.department == "Unknown Department"))),
    ?_, rfl, ?_⟩
  · rw [lookupDept, hds, find_map_self _ _ _ hdistinct]
    rfl
  · have hin : csvRow r ∈
        (rs.map csvRow).filter (fun x => x.department == "Unknown Department") := by
      rw [List.mem_filter]
      exact ⟨hr, by rw [hrdep]; exact beq_self_eq_true _⟩
    exact List.length_pos_of_mem hin

/-- C5 (witness): the grouping at a concrete one-row store with a
missing department. -/
theorem c5_unknown_department_grouping_witness :
    ∃ ds : DeptStats,
      lookupDept
          (generateAnalysis
            (([{ department := none, qa := [("Q 1", "Hi")] }] :
              List StoreResponse).map csvRow)).departmentStats "Unknown Department" =
          some ds ∧
        ds.totalResponses =
          ((([{ department := none, qa := [("Q 1", "Hi")] }] :
            List StoreResponse).map csvRow).filter
            (fun x => x.department == "Unknown Department")).length ∧
        0 < ds.totalResponses :=
  c5_unknown_department_grouping _ _ (List.mem_singleton.mpr rfl) (Or.inl rfl)


theorem sumCounts_bump (m : List (String × Nat)) (k : String) :
    sumCounts (bump m k) = sumCounts m + 1 := by
  induction m with
  | nil => rfl
  | cons p t ih =>
    obtain ⟨a, n⟩ := p
    by_cases h : a = k
    · simp [bump, h, sumCounts]
      omega
    · simp [bump, h, sumCounts] at ih ⊢
      omega

theorem sumCounts_foldl_bump (opts : List String) :
    ∀ m, sumCounts (opts.foldl bump m) = sumCounts m + opts.length := by
  induction opts with
  | nil => intro m; simp
  | cons o t ih =>
    intro m
    rw [List.foldl_cons, ih, sumCounts_bump]
    simp
    omega

theorem stepAnswer_responses (s : Option QA) (q a : String) :
    (stepAnswer s q a).responses =
      (if isStarRatingQuestion q a then bump (stateResponses s) a
      else if hasComma a then (splitTrim a).foldl bump (stateResponses s)
      else bump (stateResponses s) a) := by
  cases s <;> simp only [stepAnswer, stateResponses] <;> split_ifs <;> rfl

theorem stepAnswer_count (s : Option QA) (q a : String) :
    (stepAnswer s q a).responseCount = stateCount s + 1 := by
  cases s <;> simp only [stepAnswer, stateCount] <;> split_ifs <;> rfl

theorem stepAnswer_sumCounts (s : Option QA) (q a : String) :
    sumCounts (stepAnswer s q a).responses =
      sumCounts (stateResponses s) + answerWeight q a := by
  rw [stepAnswer_responses, answerWeight]
  split_ifs with h1 h2
  · rw [sumCounts_bump]
  · rw [sumCounts_foldl_bump]
  · rw [sumCounts_bump]

theorem stepAnswer_type_isSome (s : Option QA) (q a : String) :
    (stepAnswer s q a).type.isSome := by
  cases s <;> simp only [stepAnswer] <;> split_ifs <;> simp_all [Option.isSome_iff_ne_none]

theorem stepAnswer_type_star (s : Option QA) (q a : String)
    (h : isStarRatingQuestion q a = true) :
    (stepAnswer s q a).type = some QType.StarRating := by
  cases s <;> simp [stepAnswer, h]

theorem stepAnswer_type_comma (s : Option QA) (q a : String)
    (h1 : isStarRatingQuestion q a = false) (h2 : hasComma a = true) :
    (stepAnswer s q a).type = some QType.Checkbox := by
  cases s <;> simp [stepAnswer, h1, h2]

theorem stepAnswer_type_plain (qa : QA) (q a : String) (c : QType)
    (h1 : isStarRatingQuestion q a = false) (h2 : hasComma a = false)
    (hc : qa.type = some c) :
    (stepAnswer (some qa) q a).type = some c := by
  simp [stepAnswer, h1, h2, hc]

theorem stepAnswer_type_comma_stable (s : Option QA) (q a : String)
    (h2 : hasComma a = true) :
    (stepAnswer s q a).type = some QType.Checkbox ∨
      (stepAnswer s q a).type = some QType.StarRating := by
  cases hs : isStarRatingQuestion q a
  · exact Or.inl (stepAnswer_type_comma s q a hs h2)
  · exact Or.inr (stepAnswer_type_star s q a hs)

theorem stepAnswer_type_stable (qa : QA) (q a : String)
    (h : qa.type = some QType.Checkbox ∨ qa.type = some QType.StarRating) :
    (stepAnswer (some qa) q a).type = some QType.Checkbox ∨
      (stepAnswer (some qa) q a).type = some QType.StarRating := by
  cases hs : isStarRatingQuestion q a
  · cases hc : hasComma a
    · rcases h with h | h
      · exact Or.inl (stepAnswer_type_plain qa q a _ hs hc h)
      · exact Or.inr (stepAnswer_type_plain qa q a _ hs hc h)
    · exact Or.inl (stepAnswer_type_comma _ q a hs hc)
  · exact Or.inr (stepAnswer_type_star _ q a hs)

theorem foldl_step_sumCounts (items : List (String × String)) :
    ∀ s : Option QA,
      sumCounts (stateResponses (items.foldl (fun s p => some (stepAnswer s p.1 p.2)) s)) =
        sumCounts (stateResponses s) + (items.map (fun p => answerWeight p.1 p.2)).sum := by
  induction items with
  | nil => intro s; simp
  | cons p t ih =>
    intro s
    rw [List.foldl_cons, ih]
    show sumCounts (stepAnswer s p.1 p.2).responses + _ = _
    rw [stepAnswer_sumCounts]
    simp
    omega

theorem foldl_step_count (items : List (String × String)) :
    ∀ s : Option QA,
      stateCount (items.foldl (fun s p => some (stepAnswer s p.1 p.2)) s) =
        stateCount s + items.length := by
  induction items with
  | nil => intro s; simp
  | cons p t ih =>
    intro s
    rw [List.foldl_cons, ih]
    show stateCount (some (stepAnswer s p.1 p.2)) + _ = _
    show (stepAnswer s p.1 p.2).responseCount + _ = _
    rw [stepAnswer_count]
    simp
    omega

theorem foldl_step_isSome (items : List (String × String)) :
    ∀ (s : Option QA) (qa : QA),
      items.foldl (fun s p => some (stepAnswer s p.1 p.2)) s = some qa →
        (∀ qa0, s = some qa0 → qa0.type.isSome) → qa.type.isSome := by
  induction items with
  | nil =>
    intro s qa h hs
    exact hs qa h
  | cons p t ih =>
    intro s qa h hs
    rw [List.foldl_cons] at h
    refine ih _ qa h ?_
    intro qa0 h0
    rw [Option.some_inj] at h0
    rw [← h0]
    exact stepAnswer_type_isSome s p.1 p.2

theorem processAnswers_type_isSome (items : List (String × String)) (qa : QA)
    (h : processAnswers items = some qa) : qa.type.isSome :=
  foldl_step_isSome items none qa h (by intro qa0 h0; cases h0)

theorem foldl_step_stable (items : List (String × String)) :
    ∀ qa0 : QA,
      (qa0.type = some QType.Checkbox ∨ qa0.type = some QType.StarRating) →
      ∀ qa : QA,
        items.foldl (fun s p => some (stepAnswer s p.1 p.2)) (some qa0) = some qa →
          (qa.type = some QType.Checkbox ∨ qa.type = some QType.StarRating) := by
  induction items with
  | nil =>
    intro qa0 h0 qa h
    rw [List.foldl_nil, Option.some_inj] at h
    rw [← h]
    exact h0
  | cons p t ih =>
    intro qa0 h0 qa h
    rw [List.foldl_cons] at h
    exact ih _ (stepAnswer_type_stable qa0 p.1 p.2 h0) qa h

theorem foldl_step_comma (items : List (String × String)) :
    ∀ (s : Option QA) (qa : QA),
      items.foldl (fun s p => some (stepAnswer s p.1 p.2)) s = some qa →
        (∃ p ∈ items, hasComma p.2 = true) →
          (qa.type = some QType.Checkbox ∨ qa.type = some QType.StarRating) := by
  induction items with
  | nil =>
    intro s qa _ hex
    obtain ⟨p, hp, _⟩ := hex
    cases hp
  | cons p t ih =>
    intro s qa h hex
    rw [List.foldl_cons] at h
    obtain ⟨x, hx, hxc⟩ := hex
    rcases List.mem_cons.mp hx with rfl | hx
    · exact foldl_step_stable t _ (stepAnswer_type_comma_stable s x.1 x.2 hxc) qa h
    · exact ih _ qa h ⟨x, hx, hxc⟩

theorem processAnswers_MCQ_no_comma (items : List (String × String)) (qa : QA)
    (h : processAnswers items = some qa) (hm : qa.type = some QType.MCQ) :
    ∀ p ∈ items, hasComma p.2 = false := by
  intro p hp
  cases hc : hasComma p.2
  · rfl
  · rcases foldl_step_comma items none qa h ⟨p, hp, hc⟩ with h2 | h2 <;>
      rw [hm] at h2 <;> cases h2

theorem splitOnComma_ne_nil (cs : List Char) : splitOnComma cs ≠ [] := by
  cases cs with
  | nil => simp [splitOnComma]
  | cons c rest =>
    rw [splitOnComma]
    split_ifs
    · simp
    · cases h : splitOnComma rest <;> simp

theorem one_le_answerWeight (q a : String) : 1 ≤ answerWeight q a := by
  rw [answerWeight]
  split_ifs
  · exact Nat.le_refl 1
  · rw [splitTrim, List.length_map]
    exact List.length_pos_of_ne_nil (splitOnComma_ne_nil _)
  · exact Nat.le_refl 1

theorem answerWeight_no_comma (q a : String) (h : hasComma a = false) :
    answerWeight q a = 1 := by
  rw [answerWeight]
  split_ifs with h1 h2
  · rfl
  · rw [h] at h2; cases h2
  · rfl

theorem length_le_weight_sum (items : List (String × String)) :
    items.length ≤ (items.map (fun p => answerWeight p.1 p.2)).sum := by
  induction items with
  | nil => simp
  | cons p t ih =>
    rw [List.map_cons, List.sum_cons, List.length_cons]
    have := one_le_answerWeight p.1 p.2
    omega

theorem weight_sum_no_comma (items : List (String × String))
    (h : ∀ p ∈ items, hasComma p.2 = false) :
    (items.map (fun p => answerWeight p.1 p.2)).sum = items.length := by
  induction items with
  | nil => simp
  | cons p t ih =>
    rw [List.map_cons, List.sum_cons, List.length_cons,
      answerWeight_no_comma p.1 p.2 (h p (List.mem_cons_self p t)),
      ih (fun x hx => h x (List.mem_cons_of_mem p hx))]
    omega

/-- C7 (amended): for every question analysis produced from a nonempty
answer list, the sum of distinct-answer counts is at least the response
count; it equals the response count when the final category is `MCQ`
(which forces every tallied answer to be comma-free), and more generally
whenever no tallied answer contains a comma — in particular for a
`StarRating` question with comma-free answers.  A `Checkbox` or
mixed-history question can exceed it, as the counterexample shows. -/
theorem c7_count_sum_invariant (items : List (String × String)) (qa : QA)
    (h : processAnswers items = some qa) :
    qa.responseCount ≤ sumCounts qa.responses ∧
      (qa.type = some QType.MCQ → sumCounts qa.responses = qa.responseCount) ∧
      ((∀ p ∈ items, hasComma p.2 = false) → sumCounts qa.responses = qa.responseCount) := by
  have hsum : sumCounts qa.responses = (items.map (fun p => answerWeight p.1 p.2)).sum := by
    have := foldl_step_sumCounts items none
    rw [processAnswers] at h
    rw [h] at this
    simpa [stateResponses, sumCounts] using this
  have hcount : qa.responseCount = items.length := by
    have := foldl_step_count items none
    rw [processAnswers] at h
    rw [h] at this
    simpa [stateCount] using this
  refine ⟨?_, ?_, ?_⟩
  · rw [hsum, hcount]
    exact length_le_weight_sum items
  · intro hm
    rw [hsum, hcount]
    exact weight_sum_no_comma items (processAnswers_MCQ_no_comma items qa h hm)
  · intro hnc
    rw [hsum, hcount]
    exact weight_sum_no_comma items hnc

/-- C7 (witness): the invariant at the concrete single MCQ answer
`"Satisfied"`. -/
theorem c7_count_sum_invariant_witness :
    (QA.mk "Q 1" [("Satisfied", 1)] 1 (some QType.MCQ)).responseCount ≤
        sumCounts (QA.mk "Q 1" [("Satisfied", 1)] 1 (some QType.MCQ)).responses ∧
      ((QA.mk "Q 1" [("Satisfied", 1)] 1 (some QType.MCQ)).type = some QType.MCQ →
        sumCounts (QA.mk "Q 1" [("Satisfied", 1)] 1 (some QType.MCQ)).responses =
          (QA.mk "Q 1" [("Satisfied", 1)] 1 (some QType.MCQ)).responseCount) ∧
      ((∀ p ∈ [("Q 1", "Satisfied")], hasComma p.2 = false) →
        sumCounts (QA.mk "Q 1" [("Satisfied", 1)] 1 (some QType.MCQ)).responses =
          (QA.mk "Q 1" [("Satisfied", 1)] 1 (some QType.MCQ)).responseCount) :=
  c7_count_sum_invariant [("Q 1", "Satisfied")]
    (QA.mk "Q 1" [("Satisfied", 1)] 1 (some QType.MCQ)) (by decide)

theorem mem_takeWhile_pred {p : Char → Bool} {l : List Char} {x : Char}
    (h : x ∈ l.takeWhile p) : p x = true := by
  have hall := List.all_takeWhile (l := l) (p := p)
  rw [List.all_eq_true] at hall
  exact hall x h

theorem mem_dropWhile_of_not {p : Char → Bool} {x : Char} :
    ∀ {l : List Char}, x ∈ l → p x = false → x ∈ l.dropWhile p := by
  intro l
  induction l with
  | nil => intro h _; cases h
  | cons a t ih =>
    intro h hx
    by_cases ha : p a = true
    · rw [List.dropWhile_cons_of_pos ha]
      rcases List.mem_cons.mp h with rfl | h
      · rw [hx] at ha; cases ha
      · exact ih h hx
    · rw [List.dropWhile_cons_of_neg ha]
      exact h

theorem mem_trimChars {x : Char} {cs : List Char} (h : x ∈ cs) (hw : isWS x = false) :
    x ∈ trimChars cs := by
  rw [trimChars, List.mem_reverse]
  refine mem_dropWhile_of_not ?_ hw
  rw [List.mem_reverse]
  exact mem_dropWhile_of_not h hw

theorem comma_not_mem_of_anchored (cs : List Char) (h : anchoredStarCore cs = true) :
    (',' : Char) ∈ cs → False := by
  intro hc
  simp only [anchoredStarCore] at h
  split at h
  · cases h
  · have hsplit1 : cs = cs.takeWhile Char.isDigit ++ cs.dropWhile Char.isDigit :=
      (List.takeWhile_append_dropWhile _ _).symm
    have hsplit2 : cs.dropWhile Char.isDigit =
        (cs.dropWhile Char.isDigit).takeWhile isWS ++
          (cs.dropWhile Char.isDigit).dropWhile isWS :=
      (List.takeWhile_append_dropWhile _ _).symm
    rw [hsplit1, hsplit2] at hc
    rcases List.mem_append.mp hc with hmem | hmem
    · exact absurd (mem_takeWhile_pred hmem) (by decide)
    rcases List.mem_append.mp hmem with hmem | hmem
    · exact absurd (mem_takeWhile_pred hmem) (by decide)
    rcases hshape : (cs.dropWhile Char.isDigit).dropWhile isWS with
      _ | ⟨d1, _ | ⟨d2, _ | ⟨d3, _ | ⟨d4, rest⟩⟩⟩⟩ <;> rw [hshape] at h hmem
    · cases hmem
    · exact Bool.noConfusion h
    · exact Bool.noConfusion h
    · exact Bool.noConfusion h
    rw [starWord] at h
    split_ifs at h with hcond
    · obtain ⟨h1, h2, h3, h4⟩ := hcond
      rcases List.mem_cons.mp hmem with he | hmem
      · rw [← he] at h1
        exact absurd h1 (by decide)
      rcases List.mem_cons.mp hmem with he | hmem
      · rw [← he] at h2
        exact absurd h2 (by decide)
      rcases List.mem_cons.mp hmem with he | hmem
      · rw [← he] at h3
        exact absurd h3 (by decide)
      rcases List.mem_cons.mp hmem with he | hmem
      · rw [← he] at h4
        exact absurd h4 (by decide)
      rcases rest with _ | ⟨c5, _ | ⟨c6, rem2⟩⟩
      · cases hmem
      · have h5 : c5.toLower = 's' := by simpa using h
        rcases List.mem_cons.mp hmem with he | hmem
        · rw [← he] at h5
          exact absurd h5 (by decide)
        · cases hmem
      · exact Bool.noConfusion h

theorem anchoredStar_no_comma (a : String) (h : anchoredStar a = true) :
    hasComma a = false := by
  cases hcomma : hasComma a
  · rfl
  · exfalso
    have hmem : (',' : Char) ∈ a.data := by
      rw [hasComma] at hcomma
      simpa using hcomma
    exact comma_not_mem_of_anchored (trimChars a.data) h
      (mem_trimChars hmem (by decide))

theorem hasComma_isStar_false (q a : String) (h : hasComma a = true) :
    isStarRatingQuestion q a = false := by
  rw [isStarRatingQuestion]
  cases han : anchoredStar a
  · simp
  · have := anchoredStar_no_comma a han
    rw [h] at this
    cases this

/-- C10 (confirmed): once a question entry exists its category is never
unset (initialisation always assigns `determineQuestionType`), so the
MCQ-or-Text guard of the plain branch is unreachable; processing a
further answer overwrites the category to `StarRating` when the answer
matches the anchored star pattern (and the row carries a nonempty
question text), to `Checkbox` when it contains a comma, and leaves the
category untouched on any other answer, satisfaction labels included. -/
theorem c10_category_overwrite_rules (items : List (String × String)) (s : QA)
    (q a : String) (h : processAnswers items = some s) :
    s.type ≠ none ∧
      (q ≠ "" → anchoredStar a = true →
        (stepAnswer (some s) q a).type = some QType.StarRating) ∧
      (hasComma a = true → (stepAnswer (some s) q a).type = some QType.Checkbox) ∧
      (isStarRatingQuestion q a = false → hasComma a = false →
        (stepAnswer (some s) q a).type = s.type) := by
  have hsome := processAnswers_type_isSome items s h
  refine ⟨Option.isSome_iff_ne_none.mp hsome, ?_, ?_, ?_⟩
  · intro hq han
    have hane : a ≠ "" := by
      intro he
      rw [he] at han
      exact absurd han (by decide)
    have hstar : isStarRatingQuestion q a = true := by
      rw [isStarRatingQuestion, han]
      simp [hq, hane]
    exact stepAnswer_type_star _ q a hstar
  · intro hcomma
    exact stepAnswer_type_comma _ q a (hasComma_isStar_false q a hcomma) hcomma
  · intro h1 h2
    obtain ⟨c, hc⟩ := Option.isSome_iff_exists.mp hsome
    rw [stepAnswer_type_plain s q a c h1 h2 hc, hc]

/-- C10 (witness): the overwrite rules at a concrete established MCQ
state, with the star answer `"5 stars"` as the next answer. -/
theorem c10_category_overwrite_rules_witness :
    (QA.mk "Q 1" [("Satisfied", 1)] 1 (some QType.MCQ)).type ≠ none ∧
      ("Q 1" ≠ "" → anchoredStar "5 stars" = true →
        (stepAnswer (some (QA.mk "Q 1" [("Satisfied", 1)] 1 (some QType.MCQ)))
          "Q 1" "5 stars").type = some QType.StarRating) ∧
      (hasComma "5 stars" = true →
        (stepAnswer (some (QA.mk "Q 1" [("Satisfied", 1)] 1 (some QType.MCQ)))
          "Q 1" "5 stars").type = some QType.Checkbox) ∧
      (isStarRatingQuestion "Q 1" "5 stars" = false → hasComma "5 stars" = false →
        (stepAnswer (some (QA.mk "Q 1" [("Satisfied", 1)] 1 (some QType.MCQ)))
          "Q 1" "5 stars").type = (QA.mk "Q 1" [("Satisfied", 1)] 1 (some QType.MCQ)).type) :=
  c10_category_overwrite_rules [("Q 1", "Satisfied")]
    (QA.mk "Q 1" [("Satisfied", 1)] 1 (some QType.MCQ)) "Q 1" "5 stars" (by decide)


theorem findStar_digits (ds : List Char) (h1 : ds ≠ []) (h2 : ∀ c ∈ ds, c.isDigit = true) :
    findStar (ds ++ (" stars").data) = some (digitsVal ds) := by
  rcases ds with _ | ⟨d, dt⟩
  · cases h1 rfl
  · have h2' : ∀ c ∈ d :: dt, Char.isDigit c = true := h2
    have ht : ((d :: dt) ++ (" stars").data).takeWhile Char.isDigit = d :: dt := by
      rw [List.takeWhile_append_of_pos h2',
        show ((" stars").data.takeWhile Char.isDigit) = [] from rfl, List.append_nil]
    have hd : ((d :: dt) ++ (" stars").data).dropWhile Char.isDigit = (" stars").data := by
      rw [List.dropWhile_append_of_pos h2']
      decide
    have hm : matchStarHere ((d :: dt) ++ (" stars").data) = some (digitsVal (d :: dt)) := by
      simp only [matchStarHere, ht, hd]
      rfl
    rw [List.cons_append] at hm ⊢
    rw [findStar, hm]

/-- C1 (amended): a star-pattern answer is scored without any 1-5
range check: writing N for the parsed integer (the decimal value of the
digit run), N >= 3 contributes `(N/5)*100 = 20*N` to satisfaction (140
for "7 stars") and N < 3 contributes `((5-N)/5)*100 = 20*(5-N)` to
dissatisfaction (100 for "0 stars"), in each case entering that
bucket's denominator.  The length bound keeps the exact model aligned
with JS float arithmetic. -/
theorem c1_star_score_no_range_check (ds : List Char) (h1 : ds ≠ [])
    (h2 : ∀ c ∈ ds, c.isDigit = true) (_h3 : ds.length ≤ 14) :
    calculateSatisfactionPercentage
        [{ department := "D", qa := [("Q 1", String.mk (ds ++ (" stars").data))] }] =
      (if 3 ≤ digitsVal ds then
        { satisfaction := ((20 * digitsVal ds : Nat) : Int), dissatisfaction := 0 }
      else
        { satisfaction := 0,
          dissatisfaction := ((20 * (5 - digitsVal ds) : Nat) : Int) }) := by
  have hane : String.mk (ds ++ (" stars").data) ≠ "" := by
    intro he
    have hdata : ds ++ (" stars").data = ([] : List Char) := congrArg String.data he
    rcases List.append_eq_nil.mp hdata with ⟨_, htl⟩
    exact absurd htl (by decide)
  have hsa : satisfactionAccum
      [{ department := "D", qa := [("Q 1", String.mk (ds ++ (" stars").data))] }] =
      (if 3 ≤ digitsVal ds then SatAcc.mk (20 * digitsVal ds) 1 0 0
       else SatAcc.mk 0 0 (20 * (5 - digitsVal ds)) 1) := by
    show scoreAnswer (SatAcc.mk 0 0 0 0) "Q 1" (String.mk (ds ++ (" stars").data)) = _
    rw [scoreAnswer, if_neg (by
      intro hor
      rcases hor with hor | hor
      · exact hane hor
      · exact absurd hor (by decide))]
    rw [show (String.mk (ds ++ (" stars").data)).data = ds ++ (" stars").data from rfl]
    rw [findStar_digits ds h1 h2]
    dsimp only
    split_ifs with h <;> simp
  rw [calculateSatisfactionPercentage_eval, hsa]
  split_ifs with h
  · simp only [SatResult.mk.injEq]
    constructor
    · exact congrArg Nat.cast (by omega)
    · norm_num
  · simp only [SatResult.mk.injEq]
    constructor
    · norm_num
    · exact congrArg Nat.cast (by omega)

/-- C1 (witness): the amended scoring at the concrete digit string
`"7"`, i.e. the answer `"7 stars"`, which scores satisfaction 140. -/
theorem c1_star_score_no_range_check_witness :
    calculateSatisfactionPercentage
        [{ department := "D", qa := [("Q 1", String.mk (['7'] ++ (" stars").data))] }] =
      (if 3 ≤ digitsVal ['7'] then
        { satisfaction := ((20 * digitsVal ['7'] : Nat) : Int), dissatisfaction := 0 }
      else
        { satisfaction := 0,
          dissatisfaction := ((20 * (5 - digitsVal ['7'] ) : Nat) : Int) }) :=
  c1_star_score_no_range_check ['7'] (by decide) (by decide) (by decide)

end Survey
